import Mathlib

/-!
Verification of the DocFlow HR document-compliance rules.

The definitions below are a shallow embedding of the repository's
data model and mutation paths:

* the `documents`, `employees`, `legal_holds`, `activity_logs` and
  `retention_policies` tables from the SQL schema migration;
* `handleFiles` / `handleSubmit` from the employee upload page;
* `handleApprove` / `handleReject` and the review-actions gating from the
  HR document review page;
* `handleSubmit` from the legal-hold creation page.

Timestamps and dates are modelled as natural numbers (a date is a day
count, a timestamp an instant count); uuids are modelled as naturals.
JavaScript string falsiness (`s || d`) is modelled by an emptiness test and
`String.prototype.trim` by `jsTrim` below.  The bookkeeping column
`updated_at` (maintained by a database trigger) is not modelled.
-/

/-- Document lifecycle status, the value set of the `documents.status`
column in the schema migration. -/
inductive Status where
  | received
  | in_review
  | approved
  | rejected
  | expired
  | on_hold
deriving DecidableEq, Repr

/-- Metadata of a candidate upload file: the fields of the browser `File`
object read by the upload page (`name`, `type`, `size`). -/
structure FileMeta where
  name : String
  mime : String
  size : Nat
deriving DecidableEq, Repr

/-- One row of the `documents` table.  `retention_eligible_at` is
modelled from the spec: the implemented schema has no such column and no
implemented operation ever sets it; it is carried as an always-null field
so that claims about it can be stated. -/
structure Document where
  id : Nat
  employee_id : Nat
  type : Option String
  status : Status
  source : String
  file_url : Option String
  file_name : Option String
  file_size : Option Nat
  issue_date : Option Nat
  expiration_date : Option Nat
  priority : String
  notes : Option String
  reviewed_by : Option String
  reviewed_at : Option Nat
  version : Nat
  original_document_id : Option Nat
  created_at : Nat
  retention_eligible_at : Option Nat
deriving DecidableEq, Repr

/-- One row of the `employees` table (the fields the claims need). -/
structure Employee where
  id : Nat
  email : String
  name : String
  department : Option String
  state : String
  status : String
deriving DecidableEq, Repr

/-- One row of the append-only `activity_logs` table. -/
structure ActivityLog where
  entity_type : String
  entity_id : Nat
  event_type : String
  actor_name : String
  actor_role : String
  description : String
  created_at : Nat
deriving DecidableEq, Repr

/-- Scope of a legal hold.  The schema stores the scope in nullable
columns (`employee_ids`, `department`, `document_category`,
`date_from`/`date_to`, all null meaning every document); following the
design notes it is modelled as a tagged union with one variant per
scope. -/
inductive HoldScope where
  | all
  | byEmployeeSet (employee_ids : List Nat)
  | byDepartment (department : String)
  | byCategory (document_category : String)
  | byDateRange (date_from date_to : Nat)
deriving DecidableEq, Repr

/-- Value set of the `legal_holds.status` column. -/
inductive HoldStatus where
  | active
  | released
deriving DecidableEq, Repr

/-- One row of the `legal_holds` table. -/
structure LegalHold where
  id : Nat
  title : String
  reason : Option String
  scope : HoldScope
  status : HoldStatus
  created_by : String
  created_at : Nat
  released_at : Option Nat
deriving DecidableEq, Repr

/-- One row of the `retention_policies` table. -/
structure RetentionPolicy where
  state : String
  document_type : String
  retention_period_days : Nat
  is_override : Bool
deriving DecidableEq, Repr

/-- Validation failures surfaced by the pages: a blank rejection reason
(`Notes required` on the review page) or a blank hold title
(`Title required` on the legal-hold page). -/
inductive ValidationError where
  | notesRequired
  | titleRequired
deriving DecidableEq, Repr

/-- Failure of retention-policy resolution for a (state, type) pair. -/
inductive PolicyLookupError where
  | policyNotFound
deriving DecidableEq, Repr

/-- The database state: the four tables the implemented operations touch. -/
structure DB where
  employees : List Employee
  documents : List Document
  legal_holds : List LegalHold
  activity_logs : List ActivityLog
deriving DecidableEq, Repr

/-- The empty database. -/
def initDB : DB := { employees := [], documents := [], legal_holds := [], activity_logs := [] }

/-- Model of JavaScript `String.prototype.trim`: drop leading and trailing
whitespace characters. -/
def jsTrim (s : String) : String :=
  String.mk (((s.data.dropWhile Char.isWhitespace).reverse.dropWhile Char.isWhitespace).reverse)

/-- Model of JavaScript `String.prototype.startsWith`: the first string is
a prefix of the second, checked over the character lists. -/
def jsStartsWith (p s : String) : Bool :=
  p.data.isPrefixOf s.data

/-- The filtering step of `handleFiles` on the upload page: a candidate
file is dropped (with an error toast) when its MIME type is neither
`application/pdf` nor an `image/` type, or when its size exceeds
10 MiB; the remaining files are kept. -/
def validFiles (newFiles : List FileMeta) : List FileMeta :=
  newFiles.filter (fun file =>
    let isValidType := file.mime == "application/pdf" || jsStartsWith "image/" file.mime
    let isValidSize := file.size ≤ 10 * 1024 * 1024
    if !isValidType then false
    else if !isValidSize then false
    else true)

/-- `handleFiles` on the upload page: the valid candidates (with preview
URLs attached for images, a browser concern not modelled) are appended to
the already-selected files. -/
def handleFiles (prev newFiles : List FileMeta) : List FileMeta :=
  prev ++ validFiles newFiles

/-- C10: a candidate file passed to the upload handler is accepted if and
only if its MIME type is `application/pdf` or begins with `image/` and its
size is at most `10 * 1024 * 1024` bytes; the accepted files are the
already-selected files followed by the surviving candidates in their
original order (a sublist of the candidate list). -/
theorem upload_filter_spec (prev newFiles : List FileMeta) (f : FileMeta) :
    (f ∈ handleFiles prev newFiles ↔
      f ∈ prev ∨
        (f ∈ newFiles ∧
          (f.mime = "application/pdf" ∨ jsStartsWith "image/" f.mime = true) ∧
          f.size ≤ 10 * 1024 * 1024)) ∧
    (validFiles newFiles).Sublist newFiles := by
  constructor
  · unfold handleFiles validFiles
    rw [List.mem_append, List.mem_filter]
    refine or_congr Iff.rfl (and_congr_right fun _ => ?_)
    by_cases h1 : f.mime = "application/pdf" <;>
      by_cases h2 : jsStartsWith "image/" f.mime = true <;>
        by_cases h3 : f.size ≤ 10 * 1024 * 1024 <;>
          simp [h1, h2, h3]
  · exact List.filter_sublist _

/-- Concrete evaluation of the upload filter: an oversized image and a
non-PDF, non-image file are dropped; the valid PDF and image are kept in
order. -/
theorem validFiles_concrete :
    validFiles [⟨"a.pdf", "application/pdf", 5⟩, ⟨"b.exe", "application/x-exe", 5⟩,
      ⟨"c.png", "image/png", 11 * 1024 * 1024⟩, ⟨"d.png", "image/png", 7⟩] =
    [⟨"a.pdf", "application/pdf", 5⟩, ⟨"d.png", "image/png", 7⟩] := by decide

/-- JavaScript string falsiness used in `x || y` defaults: an empty string
is falsy. -/
def jsOr (x default : String) : String :=
  if x = "" then default else x

/-- The `handleSubmit` of the employee upload page: resolve the employee,
insert a `documents` row (status `received`, source `upload`, first file's
metadata, schema defaults for `priority`, `version` and
`original_document_id`), then insert a `submitted` activity log entry for
the new document.  `newId` stands for the uuid generated by the database
and `now` for the insertion timestamp. -/
def submitDocument (db : DB) (employeeId : Nat) (documentType : String)
    (files : List FileMeta) (notes : String) (newId now : Nat) : DB :=
  let doc : Document := {
    id := newId
    employee_id := employeeId
    type := some (jsOr documentType "Other")
    status := Status.received
    source := "upload"
    file_url := none
    file_name := some (jsOr ((files.head?.map FileMeta.name).getD "") "document.pdf")
    file_size := some ((files.head?.map FileMeta.size).getD 0)
    issue_date := none
    expiration_date := none
    priority := "medium"
    notes := if notes = "" then none else some notes
    reviewed_by := none
    reviewed_at := none
    version := 1
    original_document_id := none
    created_at := now
    retention_eligible_at := none }
  let entry : ActivityLog := {
    entity_type := "document"
    entity_id := newId
    event_type := "submitted"
    actor_name := "John Doe"
    actor_role := "employee"
    description := "Document submitted via upload"
    created_at := now }
  { db with documents := db.documents ++ [doc],
            activity_logs := db.activity_logs ++ [entry] }

/-- The `handleApprove` of the HR review page: if the document is loaded,
update its row to status `approved` with `reviewed_by`/`reviewed_at` set
and the (possibly re-selected) type, then insert an `approved` activity
log entry.  There is no status precondition inside the handler. -/
def handleApprove (db : DB) (docId : Nat) (documentType : String) (now : Nat) : DB :=
  match db.documents.find? (fun d => d.id == docId) with
  | none => db
  | some doc =>
    let newType := match doc.type with
      | some t => some (jsOr documentType t)
      | none => if documentType = "" then none else some documentType
    let entry : ActivityLog := {
      entity_type := "document"
      entity_id := doc.id
      event_type := "approved"
      actor_name := "Sarah Chen"
      actor_role := "hr_admin"
      description := "Document approved"
      created_at := now }
    { db with
      documents := db.documents.map (fun d =>
        if d.id = docId then
          { d with status := Status.approved,
                   reviewed_by := some "Sarah Chen",
                   reviewed_at := some now,
                   type := newType }
        else d),
      activity_logs := db.activity_logs ++ [entry] }

/-- The `handleReject` of the HR review page: if the document is missing
or the rejection reason is blank after trimming, show the `Notes required`
validation error and leave the database untouched; otherwise update the
row to status `rejected` with the reason stored in `notes` and
`reviewed_by`/`reviewed_at` set, then insert a `rejected` activity log
entry. -/
def handleReject (db : DB) (docId : Nat) (rejectNotes documentType : String)
    (now : Nat) : DB × Option ValidationError :=
  match db.documents.find? (fun d => d.id == docId) with
  | none => (db, some ValidationError.notesRequired)
  | some doc =>
    if jsTrim rejectNotes = "" then (db, some ValidationError.notesRequired)
    else
      let newType := match doc.type with
        | some t => some (jsOr documentType t)
        | none => if documentType = "" then none else some documentType
      let entry : ActivityLog := {
        entity_type := "document"
        entity_id := doc.id
        event_type := "rejected"
        actor_name := "Sarah Chen"
        actor_role := "hr_admin"
        description := "Document rejected: " ++ rejectNotes
        created_at := now }
      ({ db with
         documents := db.documents.map (fun d =>
           if d.id = docId then
             { d with status := Status.rejected,
                      reviewed_by := some "Sarah Chen",
                      reviewed_at := some now,
                      notes := some rejectNotes,
                      type := newType }
           else d),
         activity_logs := db.activity_logs ++ [entry] }, none)

/-- Gating of the Review Actions card on the HR review page: the approve
and reject buttons are rendered exactly when the document's status is
neither `approved` nor `rejected`. -/
def reviewActionsVisible (st : Status) : Bool :=
  !(st == Status.approved) && !(st == Status.rejected)

/-- The `handleSubmit` of the legal-hold creation page: a blank title
fails with the `Title required` validation error and changes nothing;
otherwise a hold row is inserted with status `active`, the scope taken
from the selected scope kind (department or document category when
chosen and non-empty, every document otherwise), and a `hold_applied`
activity log entry is inserted. -/
def createLegalHold (db : DB) (title reason scope department docCategory : String)
    (newId now : Nat) : DB × Option ValidationError :=
  if jsTrim title = "" then (db, some ValidationError.titleRequired)
  else
    let holdScope :=
      if scope = "department" ∧ department ≠ "" then HoldScope.byDepartment department
      else if scope = "category" ∧ docCategory ≠ "" then HoldScope.byCategory docCategory
      else HoldScope.all
    let hold : LegalHold := {
      id := newId
      title := jsTrim title
      reason := if jsTrim reason = "" then none else some (jsTrim reason)
      scope := holdScope
      status := HoldStatus.active
      created_by := "Sarah Chen"
      created_at := now
      released_at := none }
    let entry : ActivityLog := {
      entity_type := "hold"
      entity_id := newId
      event_type := "hold_applied"
      actor_name := "Sarah Chen"
      actor_role := "hr_admin"
      description := "Legal hold created: " ++ title
      created_at := now }
    ({ db with legal_holds := db.legal_holds ++ [hold],
               activity_logs := db.activity_logs ++ [entry] }, none)

theorem jsTrim_of_all_whitespace (s : String)
    (h : ∀ c ∈ s.data, c.isWhitespace = true) : jsTrim s = "" := by
  unfold jsTrim
  have h1 : s.data.dropWhile Char.isWhitespace = [] :=
    List.dropWhile_eq_nil_iff.mpr h
  rw [h1]
  rfl

/-- C1: rejecting a document with a reason that is empty or consists only
of whitespace fails with the `Notes required` validation error, and the
returned database (documents, notes, review metadata and all other
tables) is exactly the one passed in. -/
theorem reject_blank_reason_noop (db : DB) (docId : Nat)
    (reason documentType : String) (now : Nat)
    (hblank : ∀ c ∈ reason.data, c.isWhitespace = true) :
    handleReject db docId reason documentType now =
      (db, some ValidationError.notesRequired) := by
  have htrim : jsTrim reason = "" := jsTrim_of_all_whitespace reason hblank
  unfold handleReject
  cases hfind : db.documents.find? (fun d => d.id == docId) with
  | none => rfl
  | some doc => simp [htrim]

/-- A concrete received document used by several concrete checks below. -/
def exDoc1 : Document :=
  { id := 1
    employee_id := 7
    type := some "I-9"
    status := Status.received
    source := "upload"
    file_url := none
    file_name := some "i9.pdf"
    file_size := some 100
    issue_date := none
    expiration_date := none
    priority := "medium"
    notes := none
    reviewed_by := none
    reviewed_at := none
    version := 1
    original_document_id := none
    created_at := 3
    retention_eligible_at := none }

/-- A concrete database holding only `exDoc1`. -/
def exDb1 : DB :=
  { employees := [], documents := [exDoc1], legal_holds := [], activity_logs := [] }

/-- Witness for C1 at a concrete database: rejecting document 1 with the
whitespace-only reason consisting of one space fails with `Notes
required` and returns the database unchanged. -/
theorem reject_blank_reason_noop_w :
    handleReject exDb1 1 " " "I-9" 9 = (exDb1, some ValidationError.notesRequired) :=
  reject_blank_reason_noop exDb1 1 " " "I-9" 9 (by decide)

/-- C4: every successful submit appends exactly one document whose status
is `received`, whose version is 1 (the schema default; the implemented
upload flow performs the same plain insert for first submissions and
resubmissions alike), whose `retention_eligible_at` is null, together
with exactly one audit entry of entity type `document` and event type
`submitted` (the code's rendering of the spec's `document.received`
event) for the new document. -/
theorem submit_creates_received (db : DB) (eid : Nat) (dt : String)
    (fs : List FileMeta) (ns : String) (newId now : Nat) :
    ∃ doc entry,
      (submitDocument db eid dt fs ns newId now).documents = db.documents ++ [doc] ∧
      doc.id = newId ∧
      doc.status = Status.received ∧
      doc.version = 1 ∧
      doc.original_document_id = none ∧
      doc.retention_eligible_at = none ∧
      (submitDocument db eid dt fs ns newId now).activity_logs = db.activity_logs ++ [entry] ∧
      entry.entity_type = "document" ∧
      entry.entity_id = newId ∧
      entry.event_type = "submitted" :=
  ⟨_, _, rfl, rfl, rfl, rfl, rfl, rfl, rfl, rfl, rfl, rfl⟩

/-- A concrete rejected document D1 (version 1, rejection reason stored in
notes), the starting point of the resubmission scenario. -/
def exDocRejected : Document :=
  { id := 1
    employee_id := 7
    type := some "I-9"
    status := Status.rejected
    source := "upload"
    file_url := none
    file_name := some "i9.pdf"
    file_size := some 100
    issue_date := none
    expiration_date := none
    priority := "medium"
    notes := some "illegible scan"
    reviewed_by := some "Sarah Chen"
    reviewed_at := some 5
    version := 1
    original_document_id := none
    created_at := 3
    retention_eligible_at := none }

/-- A concrete database holding only the rejected document D1. -/
def exDbRejected : DB :=
  { employees := [], documents := [exDocRejected], legal_holds := [],
    activity_logs := [] }

/-- C5 (evaluation at the failing input): the Resubmit Document button is
a plain link to the upload page, and the upload flow's insert never reads
the rejected document, so resubmitting after the rejection of D1 creates
D2 with `original_document_id = null` and `version = 1` — not
`original_document_id = D1.id` and `version = D1.version + 1` as the
schema comments and the spec describe.  D1 itself does stay `rejected`
and unchanged. -/
theorem resubmit_drops_version_link :
    ∃ d2,
      (submitDocument exDbRejected 7 "I-9" [⟨"i9-v2.pdf", "application/pdf", 120⟩]
          "" 2 20).documents = [exDocRejected, d2] ∧
      d2.original_document_id = none ∧
      d2.original_document_id ≠ some exDocRejected.id ∧
      d2.version = 1 ∧
      d2.version ≠ exDocRejected.version + 1 ∧
      d2.status = Status.received ∧
      exDocRejected.status = Status.rejected :=
  ⟨_, rfl, rfl, by decide, rfl, by decide, rfl, rfl⟩

/-- Frame property of the approve update: only `status`, `reviewed_by`,
`reviewed_at` and `type` of the targeted row change; every other column
of that row, every other document, and the other tables are unchanged. -/
def ApproveFrameSpec (db : DB) (docId : Nat) (documentType : String) (now : Nat) : Prop :=
  (handleApprove db docId documentType now).employees = db.employees ∧
  (handleApprove db docId documentType now).legal_holds = db.legal_holds ∧
  (handleApprove db docId documentType now).documents.length = db.documents.length ∧
  ∀ (i : Nat) (h1 : i < db.documents.length)
      (h2 : i < (handleApprove db docId documentType now).documents.length),
    (((db.documents.get ⟨i, h1⟩).id ≠ docId →
        (handleApprove db docId documentType now).documents.get ⟨i, h2⟩ =
          db.documents.get ⟨i, h1⟩) ∧
     ((db.documents.get ⟨i, h1⟩).id = docId →
        ((handleApprove db docId documentType now).documents.get ⟨i, h2⟩).status =
            Status.approved ∧
        ((handleApprove db docId documentType now).documents.get ⟨i, h2⟩).reviewed_by =
            some "Sarah Chen" ∧
        ((handleApprove db docId documentType now).documents.get ⟨i, h2⟩).reviewed_at =
            some now ∧
        ((handleApprove db docId documentType now).documents.get ⟨i, h2⟩).id =
            (db.documents.get ⟨i, h1⟩).id ∧
        ((handleApprove db docId documentType now).documents.get ⟨i, h2⟩).employee_id =
            (db.documents.get ⟨i, h1⟩).employee_id ∧
        ((handleApprove db docId documentType now).documents.get ⟨i, h2⟩).source =
            (db.documents.get ⟨i, h1⟩).source ∧
        ((handleApprove db docId documentType now).documents.get ⟨i, h2⟩).file_url =
            (db.documents.get ⟨i, h1⟩).file_url ∧
        ((handleApprove db docId documentType now).documents.get ⟨i, h2⟩).file_name =
            (db.documents.get ⟨i, h1⟩).file_name ∧
        ((handleApprove db docId documentType now).documents.get ⟨i, h2⟩).file_size =
            (db.documents.get ⟨i, h1⟩).file_size ∧
        ((handleApprove db docId documentType now).documents.get ⟨i, h2⟩).issue_date =
            (db.documents.get ⟨i, h1⟩).issue_date ∧
        ((handleApprove db docId documentType now).documents.get ⟨i, h2⟩).expiration_date =
            (db.documents.get ⟨i, h1⟩).expiration_date ∧
        ((handleApprove db docId documentType now).documents.get ⟨i, h2⟩).priority =
            (db.documents.get ⟨i, h1⟩).priority ∧
        ((handleApprove db docId documentType now).documents.get ⟨i, h2⟩).notes =
            (db.documents.get ⟨i, h1⟩).notes ∧
        ((handleApprove db docId documentType now).documents.get ⟨i, h2⟩).version =
            (db.documents.get ⟨i, h1⟩).version ∧
        ((handleApprove db docId documentType now).documents.get ⟨i, h2⟩).original_document_id =
            (db.documents.get ⟨i, h1⟩).original_document_id ∧
        ((handleApprove db docId documentType now).documents.get ⟨i, h2⟩).created_at =
            (db.documents.get ⟨i, h1⟩).created_at ∧
        ((handleApprove db docId documentType now).documents.get ⟨i, h2⟩).retention_eligible_at =
            (db.documents.get ⟨i, h1⟩).retention_eligible_at))

/-- C9: a successful approve (the targeted document is loaded) modifies
only `status`, `reviewed_by`, `reviewed_at` and `type` of the targeted
row; `employee_id`, `source`, `file_name`, `file_size`, `notes`,
`version`, `original_document_id`, `created_at` and every remaining
column of that row are unchanged, as are all other documents and all
other tables. -/
theorem approve_frame (db : DB) (docId : Nat) (documentType : String) (now : Nat)
    (doc : Document)
    (hfound : db.documents.find? (fun d => d.id == docId) = some doc) :
    ApproveFrameSpec db docId documentType now := by
  unfold ApproveFrameSpec handleApprove
  rw [hfound]
  refine ⟨rfl, rfl, by simp, ?_⟩
  intro i h1 h2
  simp only [List.get_eq_getElem, List.getElem_map]
  by_cases hid : (db.documents.get ⟨i, h1⟩).id = docId
  all_goals simp only [List.get_eq_getElem] at hid
  · refine ⟨fun hne => absurd hid hne, fun _ => ?_⟩
    simp [hid]
  · refine ⟨fun _ => ?_, fun heq => absurd heq hid⟩
    simp [hid]

/-- Witness for C9: the frame property evaluated on the concrete database
`exDb1`, whose only document (id 1, status `received`) is approved. -/
theorem approve_frame_w :
    (exDb1.documents.find? (fun d => d.id == 1) = some exDoc1) ∧
    ApproveFrameSpec exDb1 1 "" 9 :=
  ⟨by decide, approve_frame exDb1 1 "" 9 exDoc1 (by decide)⟩

/-- One user-visible mutating operation of the application.  Submit and
legal-hold creation are reachable from their pages directly; approve and
reject are only reachable through the Review Actions card of the review
page, which is rendered for a loaded document whose status passes
`reviewActionsVisible`. -/
inductive Step : DB → DB → Prop where
  | submit (db : DB) (eid : Nat) (dt : String) (fs : List FileMeta)
      (ns : String) (newId now : Nat) :
      Step db (submitDocument db eid dt fs ns newId now)
  | approve (db : DB) (docId : Nat) (dt : String) (now : Nat) (doc : Document)
      (hfound : db.documents.find? (fun d => d.id == docId) = some doc)
      (hgate : reviewActionsVisible doc.status = true) :
      Step db (handleApprove db docId dt now)
  | reject (db : DB) (docId : Nat) (reason dt : String) (now : Nat) (doc : Document)
      (hfound : db.documents.find? (fun d => d.id == docId) = some doc)
      (hgate : reviewActionsVisible doc.status = true) :
      Step db (handleReject db docId reason dt now).1
  | createHold (db : DB) (title reason scope department docCategory : String)
      (newId now : Nat) :
      Step db (createLegalHold db title reason scope department docCategory newId now).1

/-- A database reachable from the empty database by the application's
operations. -/
def Reachable (db : DB) : Prop :=
  Relation.ReflTransGen Step initDB db

/-- Every document whose status is `approved` has both `reviewed_by` and
`reviewed_at` set. -/
def ApprovedReviewed (db : DB) : Prop :=
  ∀ d ∈ db.documents, d.status = Status.approved →
    d.reviewed_by ≠ none ∧ d.reviewed_at ≠ none

theorem step_preserves_approvedReviewed {db db2 : DB} (h : Step db db2)
    (hinv : ApprovedReviewed db) : ApprovedReviewed db2 := by
  cases h with
  | submit eid dt fs ns newId now =>
    intro d hd hst
    unfold submitDocument at hd
    simp only [List.mem_append, List.mem_singleton] at hd
    rcases hd with hd | hd
    · exact hinv d hd hst
    · subst hd
      simp at hst
  | approve docId dt now doc hfound hgate =>
    intro d hd hst
    unfold handleApprove at hd
    rw [hfound] at hd
    simp only [List.mem_map] at hd
    obtain ⟨a, ha, hda⟩ := hd
    by_cases hid : a.id = docId
    · rw [if_pos hid] at hda
      subst hda
      constructor <;> simp
    · rw [if_neg hid] at hda
      subst hda
      exact hinv a ha hst
  | reject docId reason dt now doc hfound hgate =>
    intro d hd hst
    simp only [handleReject, hfound] at hd
    by_cases htrim : jsTrim reason = ""
    · rw [if_pos htrim] at hd
      exact hinv d hd hst
    · rw [if_neg htrim] at hd
      simp only [List.mem_map] at hd
      obtain ⟨a, ha, hda⟩ := hd
      by_cases hid : a.id = docId
      · rw [if_pos hid] at hda
        subst hda
        simp at hst
      · rw [if_neg hid] at hda
        subst hda
        exact hinv a ha hst
  | createHold title reason scope department docCategory newId now =>
    intro d hd hst
    unfold createLegalHold at hd
    by_cases htrim : jsTrim title = ""
    · rw [if_pos htrim] at hd
      exact hinv d hd hst
    · rw [if_neg htrim] at hd
      exact hinv d hd hst

/-- C2: in every database reachable by the application's operations, a
document with status `approved` has `reviewed_by` and `reviewed_at` both
non-null — no operation sets `status = approved` without setting both in
the same update. -/
theorem approved_docs_have_reviewer (db : DB) (h : Reachable db) :
    ApprovedReviewed db := by
  unfold Reachable at h
  induction h with
  | refl => intro d hd _; simp [initDB] at hd
  | tail _ hstep ih => exact step_preserves_approvedReviewed hstep ih

/-- Witness for C2: the invariant holds at a concrete reachable database,
the one obtained from the empty database by approving nothing and
submitting one document. -/
theorem approved_docs_have_reviewer_w :
    ApprovedReviewed (submitDocument initDB 7 "I-9" [] "" 1 3) :=
  approved_docs_have_reviewer (submitDocument initDB 7 "I-9" [] "" 1 3)
    (Relation.ReflTransGen.tail Relation.ReflTransGen.refl
      (Step.submit initDB 7 "I-9" [] "" 1 3))

/-- C8: every operation of the system only appends to the activity log:
after any step the old activity log is an unchanged prefix of the new
one — no entry is ever updated or deleted. -/
theorem activity_logs_append_only (db db2 : DB) (h : Step db db2) :
    db.activity_logs <+: db2.activity_logs := by
  cases h with
  | submit eid dt fs ns newId now =>
    exact ⟨_, rfl⟩
  | approve docId dt now doc hfound hgate =>
    unfold handleApprove
    rw [hfound]
    exact ⟨_, rfl⟩
  | reject docId reason dt now doc hfound hgate =>
    simp only [handleReject, hfound]
    by_cases htrim : jsTrim reason = ""
    · rw [if_pos htrim]
    · rw [if_neg htrim]
      exact ⟨_, rfl⟩
  | createHold title reason scope department docCategory newId now =>
    unfold createLegalHold
    by_cases htrim : jsTrim title = ""
    · rw [if_pos htrim]
    · rw [if_neg htrim]
      exact ⟨_, rfl⟩

/-- Witness for C8: a concrete step (one document submission from the
empty database) only appends to the activity log. -/
theorem activity_logs_append_only_w :
    initDB.activity_logs <+: (submitDocument initDB 7 "I-9" [] "" 1 3).activity_logs :=
  activity_logs_append_only initDB (submitDocument initDB 7 "I-9" [] "" 1 3)
    (Step.submit initDB 7 "I-9" [] "" 1 3)

/-- A concrete document whose status is `on_hold`. -/
def exDocOnHold : Document :=
  { id := 2
    employee_id := 7
    type := some "W-4"
    status := Status.on_hold
    source := "upload"
    file_url := none
    file_name := some "w4.pdf"
    file_size := some 80
    issue_date := none
    expiration_date := none
    priority := "medium"
    notes := none
    reviewed_by := none
    reviewed_at := none
    version := 1
    original_document_id := none
    created_at := 4
    retention_eligible_at := none }

/-- A concrete database holding only the on-hold document. -/
def exDbOnHold : DB :=
  { employees := [], documents := [exDocOnHold], legal_holds := [],
    activity_logs := [] }

/-- C3 counterexample: the Review Actions card is rendered for a document
whose status is `on_hold` (it is hidden only for `approved` and
`rejected`), and the approve handler has no status precondition, so
approving an `on_hold` document — a status outside
{received, in_review} — succeeds and sets its status to `approved`. -/
theorem approve_gate_admits_on_hold :
    reviewActionsVisible Status.on_hold = true ∧
    Status.on_hold ≠ Status.received ∧
    Status.on_hold ≠ Status.in_review ∧
    (handleApprove exDbOnHold 2 "" 9).documents.map Document.status =
      [Status.approved] := by
  refine ⟨rfl, by decide, by decide, ?_⟩
  decide

/-- The approve availability amended to what the page implements: the
action is offered exactly when the loaded document's status is neither
`approved` nor `rejected`, and whenever it is offered the handler sets
the targeted document's status to `approved`. -/
def ApproveGateSpec (db : DB) (docId : Nat) (documentType : String) (now : Nat)
    (doc : Document) : Prop :=
  (reviewActionsVisible doc.status = true ↔
    (doc.status = Status.received ∨ doc.status = Status.in_review ∨
     doc.status = Status.expired ∨ doc.status = Status.on_hold)) ∧
  (reviewActionsVisible doc.status = true →
    ∀ d ∈ (handleApprove db docId documentType now).documents,
      d.id = docId → d.status = Status.approved)

/-- C3 amended: the approve transition is available for a loaded document
exactly when its status is neither `approved` nor `rejected` — that is,
for `received`, `in_review`, `expired` and `on_hold` alike — and then it
succeeds, setting the document's status to `approved`. -/
theorem approve_gate_not_terminal (db : DB) (docId : Nat) (documentType : String)
    (now : Nat) (doc : Document)
    (hfound : db.documents.find? (fun d => d.id == docId) = some doc) :
    ApproveGateSpec db docId documentType now doc := by
  constructor
  · cases doc.status <;> simp [reviewActionsVisible]
  · intro _ d hd hdid
    unfold handleApprove at hd
    rw [hfound] at hd
    simp only [List.mem_map] at hd
    obtain ⟨a, _, hda⟩ := hd
    by_cases hid : a.id = docId
    · rw [if_pos hid] at hda
      subst hda
      rfl
    · rw [if_neg hid] at hda
      subst hda
      exact absurd hdid hid

/-- Witness for the amended C3 at the concrete database `exDbOnHold`. -/
theorem approve_gate_not_terminal_w :
    (exDbOnHold.documents.find? (fun d => d.id == 2) = some exDocOnHold) ∧
    ApproveGateSpec exDbOnHold 2 "" 9 exDocOnHold :=
  ⟨by decide, approve_gate_not_terminal exDbOnHold 2 "" 9 exDocOnHold (by decide)⟩

/-- Modelled from the spec: retention-policy resolution is not implemented
in this repository (the backend exists only as a plan document); the
policy table is the `retention_policies` table of the schema, and per the
spec an `is_override` policy for a (work state, document type) key takes
precedence over the non-override default for that key. -/
def resolve_retention_policy (table : List RetentionPolicy)
    (work_state doc_type : String) : Option RetentionPolicy :=
  match table.find? (fun p =>
      p.state == work_state && p.document_type == doc_type && p.is_override) with
  | some p => some p
  | none =>
    table.find? (fun p =>
      p.state == work_state && p.document_type == doc_type && !p.is_override)

/-- Modelled from the spec: `compute_retention_eligible_at` adds the
resolved policy's `retention_period_days` to the anchor date (dates are
day numbers, so this is calendar-day addition); when no policy is
resolvable for the (work state, document type) pair it fails with
`PolicyNotFoundError` instead of silently defaulting. -/
def compute_retention_eligible_at (anchor_date : Nat) (table : List RetentionPolicy)
    (work_state doc_type : String) : Except PolicyLookupError Nat :=
  match resolve_retention_policy table work_state doc_type with
  | some p => Except.ok (anchor_date + p.retention_period_days)
  | none => Except.error PolicyLookupError.policyNotFound

/-- C6: under the schema's UNIQUE(state, document_type) constraint (at
most one policy row per key), `compute_retention_eligible_at` returns
`anchor_date + retention_period_days` of the policy matching the
(work state, document type) key — an override row when that is what the
key resolves to, the non-override default otherwise — and fails with
`PolicyNotFoundError` when no row matches the key. -/
theorem compute_retention_c6 (anchor : Nat) (table : List RetentionPolicy)
    (ws dt : String)
    (hkey : ∀ p ∈ table, ∀ q ∈ table,
      p.state = q.state → p.document_type = q.document_type → p = q) :
    ((∀ p ∈ table, ¬(p.state = ws ∧ p.document_type = dt)) →
      compute_retention_eligible_at anchor table ws dt =
        Except.error PolicyLookupError.policyNotFound) ∧
    (∀ p ∈ table, p.state = ws → p.document_type = dt →
      compute_retention_eligible_at anchor table ws dt =
        Except.ok (anchor + p.retention_period_days)) := by
  constructor
  · intro hnone
    unfold compute_retention_eligible_at resolve_retention_policy
    have h1 : table.find? (fun p =>
        p.state == ws && p.document_type == dt && p.is_override) = none := by
      rw [List.find?_eq_none]
      intro p hp hpred
      simp only [Bool.and_eq_true, beq_iff_eq] at hpred
      exact hnone p hp ⟨hpred.1.1, hpred.1.2⟩
    have h2 : table.find? (fun p =>
        p.state == ws && p.document_type == dt && !p.is_override) = none := by
      rw [List.find?_eq_none]
      intro p hp hpred
      simp only [Bool.and_eq_true, beq_iff_eq] at hpred
      exact hnone p hp ⟨hpred.1.1, hpred.1.2⟩
    rw [h1, h2]
  · intro p hp hst hdt
    unfold compute_retention_eligible_at resolve_retention_policy
    by_cases hov : p.is_override = true
    · have hsome : (table.find? (fun q =>
          q.state == ws && q.document_type == dt && q.is_override)).isSome := by
        rw [List.find?_isSome]
        exact ⟨p, hp, by simp [hst, hdt, hov]⟩
      obtain ⟨q, hq⟩ := Option.isSome_iff_exists.mp hsome
      have hqmem := List.mem_of_find?_eq_some hq
      have hqpred := List.find?_some hq
      simp only [Bool.and_eq_true, beq_iff_eq] at hqpred
      have : q = p := hkey q hqmem p hp (hqpred.1.1.trans hst.symm)
        (hqpred.1.2.trans hdt.symm)
      rw [hq, this]
    · have h1 : table.find? (fun q =>
          q.state == ws && q.document_type == dt && q.is_override) = none := by
        rw [List.find?_eq_none]
        intro q hq hqpred
        simp only [Bool.and_eq_true, beq_iff_eq] at hqpred
        have : q = p := hkey q hq p hp (hqpred.1.1.trans hst.symm)
          (hqpred.1.2.trans hdt.symm)
        rw [this] at hqpred
        exact hov hqpred.2
      have hsome : (table.find? (fun q =>
          q.state == ws && q.document_type == dt && !q.is_override)).isSome := by
        rw [List.find?_isSome]
        refine ⟨p, hp, ?_⟩
        simp only [Bool.and_eq_true, beq_iff_eq, Bool.not_eq_true']
        exact ⟨⟨hst, hdt⟩, Bool.not_eq_true p.is_override ▸ hov⟩
      obtain ⟨q, hq⟩ := Option.isSome_iff_exists.mp hsome
      have hqmem := List.mem_of_find?_eq_some hq
      have hqpred := List.find?_some hq
      simp only [Bool.and_eq_true, beq_iff_eq] at hqpred
      have : q = p := hkey q hqmem p hp (hqpred.1.1.trans hst.symm)
        (hqpred.1.2.trans hdt.symm)
      rw [h1, hq, this]

/-- The seeded Texas I-9 default policy used by the concrete checks. -/
def exPolicyTable : List RetentionPolicy :=
  [{ state := "TX", document_type := "I-9", retention_period_days := 1460,
     is_override := false },
   { state := "FL", document_type := "W-4", retention_period_days := 365,
     is_override := false }]

/-- Witness for C6: on the concrete policy table, a Texas I-9 anchored at
day 100 becomes retention-eligible on day 1560, through the theorem. -/
theorem compute_retention_c6_w :
    compute_retention_eligible_at 100 exPolicyTable "TX" "I-9" = Except.ok 1560 :=
  (compute_retention_c6 100 exPolicyTable "TX" "I-9" (by decide)).2
    { state := "TX", document_type := "I-9", retention_period_days := 1460,
      is_override := false } (by decide) rfl rfl

/-- Modelled from the spec: per-scope hold matching
(`document_matches_hold`) is not implemented in this repository (the
frontend only creates holds); per the design notes the scope is a tagged
union with one matcher per tag — all documents, the owning employee's id
in the hold's employee set, the employee's department equal to the
hold's, the document type equal to the hold's category, or the document's
creation date inside the inclusive date range. -/
def document_matches_hold (doc : Document) (emp : Employee)
    (hold : LegalHold) : Bool :=
  match hold.scope with
  | HoldScope.all => true
  | HoldScope.byEmployeeSet ids => decide (emp.id ∈ ids)
  | HoldScope.byDepartment d => decide (emp.department = some d)
  | HoldScope.byCategory c => decide (doc.type = some c)
  | HoldScope.byDateRange lo hi =>
    decide (lo ≤ doc.created_at ∧ doc.created_at ≤ hi)

/-- Modelled from the spec: a document is held iff it matches at least
one hold whose status is `active`, re-evaluated against all holds rather
than reference-counted. -/
def is_held (doc : Document) (emp : Employee) (holds : List LegalHold) : Bool :=
  holds.any (fun h =>
    h.status == HoldStatus.active && document_matches_hold doc emp h)

/-- Modelled from the spec: releasing a hold sets its status to
`released` (and stamps `released_at`); no document row is touched. -/
def releaseHold (holds : List LegalHold) (holdId now : Nat) : List LegalHold :=
  holds.map (fun h =>
    if h.id = holdId then
      { h with status := HoldStatus.released, released_at := some now }
    else h)

theorem document_matches_hold_iff (doc : Document) (emp : Employee)
    (hold : LegalHold) :
    document_matches_hold doc emp hold = true ↔
      (hold.scope = HoldScope.all ∨
       (∃ ids, hold.scope = HoldScope.byEmployeeSet ids ∧ emp.id ∈ ids) ∨
       (∃ d, hold.scope = HoldScope.byDepartment d ∧ emp.department = some d) ∨
       (∃ c, hold.scope = HoldScope.byCategory c ∧ doc.type = some c) ∨
       (∃ lo hi, hold.scope = HoldScope.byDateRange lo hi ∧
          lo ≤ doc.created_at ∧ doc.created_at ≤ hi)) := by
  cases hs : hold.scope with
  | all => simp [document_matches_hold, hs]
  | byEmployeeSet ids => simp [document_matches_hold, hs]
  | byDepartment d => simp [document_matches_hold, hs]
  | byCategory c => simp [document_matches_hold, hs]
  | byDateRange lo hi =>
    simp only [document_matches_hold, hs, decide_eq_true_eq,
      HoldScope.byDateRange.injEq]
    simp only [reduceCtorEq, false_and, exists_false, exists_and_left, or_false,
      false_or, HoldScope.byDateRange.injEq]
    constructor
    · intro hx
      exact ⟨lo, hi, ⟨rfl, rfl⟩, hx⟩
    · rintro ⟨lo2, hi2, ⟨h1, h2⟩, hx⟩
      subst h1
      subst h2
      exact hx

/-- C7: a document is held iff some hold in the list is `active` and
matches it under the per-scope matcher (all → always; employee set →
owning employee's id in the set; department → employee's department
equals the hold's; category → document type equals the hold's category;
date range → creation date within the inclusive range); moreover
releasing one hold leaves the document held whenever a different hold is
active and matches it. -/
theorem held_iff_active_match (doc : Document) (emp : Employee)
    (holds : List LegalHold) :
    (is_held doc emp holds = true ↔
      ∃ h ∈ holds, h.status = HoldStatus.active ∧
        (h.scope = HoldScope.all ∨
         (∃ ids, h.scope = HoldScope.byEmployeeSet ids ∧ emp.id ∈ ids) ∨
         (∃ d, h.scope = HoldScope.byDepartment d ∧ emp.department = some d) ∨
         (∃ c, h.scope = HoldScope.byCategory c ∧ doc.type = some c) ∨
         (∃ lo hi, h.scope = HoldScope.byDateRange lo hi ∧
            lo ≤ doc.created_at ∧ doc.created_at ≤ hi))) ∧
    (∀ (released now : Nat) (h : LegalHold), h ∈ holds → h.id ≠ released →
      h.status = HoldStatus.active → document_matches_hold doc emp h = true →
      is_held doc emp (releaseHold holds released now) = true) := by
  constructor
  · unfold is_held
    rw [List.any_eq_true]
    constructor
    · rintro ⟨h, hmem, hpred⟩
      simp only [Bool.and_eq_true, beq_iff_eq] at hpred
      exact ⟨h, hmem, hpred.1, (document_matches_hold_iff doc emp h).mp hpred.2⟩
    · rintro ⟨h, hmem, hstat, hmatch⟩
      refine ⟨h, hmem, ?_⟩
      simp only [Bool.and_eq_true, beq_iff_eq]
      exact ⟨hstat, (document_matches_hold_iff doc emp h).mpr hmatch⟩
  · intro released now h hmem hne hstat hmatch
    unfold is_held releaseHold
    rw [List.any_eq_true]
    have himg := List.mem_map_of_mem (fun g =>
      if g.id = released then
        { g with status := HoldStatus.released, released_at := some now }
      else g) hmem
    simp only [if_neg hne] at himg
    refine ⟨h, himg, ?_⟩
    simp only [Bool.and_eq_true, beq_iff_eq]
    exact ⟨hstat, hmatch⟩

/-- The concrete employee owning `exDoc1`. -/
def exEmp : Employee :=
  { id := 7, email := "john.doe@company.com", name := "John Doe",
    department := some "Engineering", state := "TX", status := "active" }

/-- A concrete active department-scoped hold (id 1). -/
def exHoldDept : LegalHold :=
  { id := 1, title := "Case A", reason := none,
    scope := HoldScope.byDepartment "Engineering",
    status := HoldStatus.active, created_by := "Sarah Chen",
    created_at := 2, released_at := none }

/-- A concrete active hold over all documents (id 2). -/
def exHoldAll : LegalHold :=
  { id := 2, title := "Case B", reason := none, scope := HoldScope.all,
    status := HoldStatus.active, created_by := "Sarah Chen",
    created_at := 2, released_at := none }

/-- Witness for C7: after releasing hold 1, the document is still held
because the broader hold 2 remains active and matches it. -/
theorem held_iff_active_match_w :
    is_held exDoc1 exEmp (releaseHold [exHoldDept, exHoldAll] 1 9) = true :=
  (held_iff_active_match exDoc1 exEmp [exHoldDept, exHoldAll]).2 1 9 exHoldAll
    (by decide) (by decide) rfl (by decide)
